import Mathlib

/-!
# EasyOCR pipeline orchestration: a shallow embedding

This file embeds the orchestration layer of `easyocr/easyocr.py` (the
`Reader` class: `__init__`, `detect`, `recognize`, `readtext`) in Lean 4
and proves the specification claims about it.

The two neural oracles (detector, recognizer), image reformatting and the
bidirectional-reordering routine are opaque collaborators of the
orchestrator; they are modelled as fields of an `Oracles` record, so every
theorem quantifies over their behaviour.  The helper algorithms that the
orchestrator imports from `easyocr/utils.py` (`get_image_list`,
`make_rotated_img_list`, `set_result_with_confidence`, `get_paragraph`,
`diff`) are repository code whose source is not part of the visible tree;
they are modelled from the specification, each with a doc comment saying
exactly what was modelled.

Numeric conventions: pixel coordinates are `Int`, thresholds and
confidences are `ℚ`, and Python's `int(...)` truncation of a nonnegative
float is modelled as `Nat` floor division.
-/

set_option autoImplicit false

namespace EasyOCR

/-- A point in source-image pixel coordinates. -/
abbrev Pt := Int × Int

/-- A polygon box: an ordered list of points (the detector's 4-point quads
and the full-image quadrilateral built by `recognize`). -/
abbrev Box := List Pt

/-- A horizontal (axis-aligned) box, the 4-number list
`[x_min, x_max, y_min, y_max]` used throughout `easyocr.py`. -/
structure HBox where
  x0 : Int
  x1 : Int
  y0 : Int
  y1 : Int
  deriving DecidableEq, Repr

/-- A free-form box: an ordered point polygon. -/
abbrev FBox := Box

/-- An abstract grayscale image; only its shape `(h, w)` (numpy
`img.shape = (y_max, x_max)`) is observable to the orchestrator. -/
structure GreyImg where
  h : Nat
  w : Nat
  deriving DecidableEq, Repr

/-- The model input height `imgH` from the recognition configuration
(`config.py`, value 64 for the standard networks). -/
def imgH : Nat := 64

/-- An abstract crop (rectified image strip).  Constructors record which
image operation of the pipeline produced the strip and with which
parameters; the pixel content itself stays opaque. -/
inductive CropImg where
  /-- `cv2.resize(img, (w, h))` of a whole grayscale image. -/
  | resized (src : GreyImg) (w : Nat) (h : Nat)
  /-- Axis-aligned crop of a horizontal box, resized to model height. -/
  | cropResized (src : GreyImg) (b : HBox) (h : Nat)
  /-- Perspective rectification of a free-form box to model height. -/
  | rectified (src : GreyImg) (b : FBox) (h : Nat)
  /-- A rotated variant of a strip (Orientation Ensemble expansion). -/
  | rotated (c : CropImg) (angle : Nat)
  deriving DecidableEq, Repr

/-- One recognition record `[box, text, confidence]` as it flows through
`recognize`; paragraph records produced by `get_paragraph` carry no
confidence, hence the `Option`. -/
structure Item where
  box : Box
  text : String
  conf : Option ℚ
  deriving DecidableEq, Repr

/-- Errors of the embedded pipeline: touching the missing confidence field
of a paragraph record (`IndexError` on `result[2]` in Python), or
`np.argmax` over an empty slice (`ValueError`). -/
inductive PipeErr where
  | confMissing
  | emptyGroup
  deriving DecidableEq, Repr

/-- The value `recognize` returns: full `(box, text, confidence)` records
(`detail >= 1`) or text only (`detail == 0`). -/
inductive RecogOut where
  | full (items : List Item)
  | textOnly (ts : List String)
  deriving DecidableEq, Repr

/-- Minimum of a coordinate list (0 for the empty list). -/
def listMinI : List Int → Int
  | [] => 0
  | x :: xs => xs.foldl min x

/-- Maximum of a coordinate list (0 for the empty list). -/
def listMaxI : List Int → Int
  | [] => 0
  | x :: xs => xs.foldl max x

/-- Modelled from the spec: `utils.diff` (not under `src/`), the extent of
a coordinate list — boxes are measured by the "max of width/height", and
for a free-form box width/height are the extents of its x/y coordinates,
i.e. maximum minus minimum. -/
def diff (l : List Int) : Int := listMaxI l - listMinI l

/-- The per-instance configuration of a `Reader` that `detect`,
`recognize` and `readtext` read (and, per claim C8, never write). -/
structure Reader where
  character : List Char
  lang_char : List Char
  model_lang : String
  device : String
  deriving DecidableEq, Repr

/-- The decoding parameters handed to the recognizer oracle by
`get_text(...)` in `recognize`. -/
structure RecParams where
  character : List Char
  height : Nat
  max_width : Nat
  ignore : Finset Char
  decoder : String
  beamWidth : Nat
  batch_size : Nat
  contrast_ths : ℚ
  adjust_contrast : ℚ
  filter_ths : ℚ
  workers : Nat
  device : String

/-- The opaque collaborators of the orchestrator: image reformatting, the
detector oracle (`get_textbox`), the Geometry Clusterer
(`group_text_box`), the recognizer oracle reduced to its per-crop action
(its contract in the spec, one output per input crop in batch order, is
what lets it be modelled this way), and bidirectional reordering
(`bidi.algorithm.get_display`). -/
structure Oracles where
  reformat : GreyImg → GreyImg × GreyImg
  get_textbox : GreyImg → Nat → ℚ → ℚ → ℚ → ℚ → Bool → String → Option Nat → List Box
  group_text_box : List Box → ℚ → ℚ → ℚ → ℚ → ℚ → Bool → List HBox × List FBox
  recOne : RecParams → CropImg → String × ℚ
  bidi : String → String

/-- Python truthiness of an optional list argument (`if allowlist:`):
true exactly when the argument was supplied and is non-empty. -/
def truthy {α : Type} : Option (List α) → Bool
  | none => false
  | some l => !l.isEmpty

/-- The character-ignore filter built by `recognize`
(`easyocr.py` lines 314–319): allowlist branch, then blocklist branch,
then the default set-difference against the languages' native characters.
The Python value is joined from `set(...)` in unspecified order, so
the filter is embedded as the `Finset` of its characters. -/
def ignoreChar (character lang_char : List Char)
    (allowlist blocklist : Option (List Char)) : Finset Char :=
  if truthy allowlist then character.toFinset \ (allowlist.getD []).toFinset
  else if truthy blocklist then (blocklist.getD []).toFinset
  else character.toFinset \ lang_char.toFinset

/-- `Reader.detect` (`easyocr.py` lines 272–292): reformat if requested,
run the detector oracle, run the Geometry Clusterer, then drop every box
whose maximum dimension is not strictly larger than `min_size`
(the filter is skipped entirely when `min_size` is falsy, i.e. `0`). -/
def detect (o : Oracles) (r : Reader) (img : GreyImg) (min_size : Nat)
    (text_threshold low_text link_threshold : ℚ) (canvas_size : Nat)
    (mag_ratio slope_ths ycenter_ths height_ths width_ths add_margin : ℚ)
    (reformat : Bool) (optimal_num_chars : Option Nat) :
    List HBox × List FBox :=
  let img := if reformat then (o.reformat img).1 else img
  let text_box := o.get_textbox img canvas_size mag_ratio text_threshold
      link_threshold low_text false r.device optimal_num_chars
  let hf := o.group_text_box text_box slope_ths ycenter_ths height_ths
      width_ths add_margin optimal_num_chars.isNone
  if min_size ≠ 0 then
    (hf.1.filter (fun i => decide (max (i.x1 - i.x0) (i.y1 - i.y0) > (min_size : Int))),
     hf.2.filter (fun c => decide (max (diff (c.map Prod.fst)) (diff (c.map Prod.snd)) > (min_size : Int))))
  else hf

/-- The horizontal-box quadrilateral recorded alongside each crop:
`[[x_min, y_min], [x_max, y_min], [x_max, y_max], [x_min, y_max]]`. -/
def hboxToQuad (b : HBox) : Box :=
  [(b.x0, b.y0), (b.x1, b.y0), (b.x1, b.y1), (b.x0, b.y1)]

/-- Width of a strip, used only to track the batch maximum width (the
aspect-preserving resize of the spec's Crop Normalizer, with `Int`
floor division for the truncation). -/
def cropW : CropImg → Nat
  | .resized _ w _ => w
  | .cropResized _ b h => ((h : Int) * (b.x1 - b.x0) / max 1 (b.y1 - b.y0)).toNat
  | .rectified _ b h =>
      ((h : Int) * diff (b.map Prod.fst) / max 1 (diff (b.map Prod.snd))).toNat
  | .rotated c _ => cropW c

/-- Modelled from the spec: `utils.get_image_list` (not under `src/`), the
Crop Normalizer — one fixed-height strip per box, horizontal boxes first
and then free boxes, each preserving the caller's order, together with the
batch's maximum strip width. -/
def get_image_list (hl : List HBox) (fl : List FBox) (img : GreyImg)
    (model_height : Nat) : List (Box × CropImg) × Nat :=
  let hItems := hl.map (fun b => (hboxToQuad b, CropImg.cropResized img b model_height))
  let fItems := fl.map (fun b => (b, CropImg.rectified img b model_height))
  let items := hItems ++ fItems
  (items, (items.map (fun p => cropW p.2)).foldl max 0)

/-- Modelled from the spec: `utils.make_rotated_img_list` (not under
`src/`), the Orientation Ensemble expansion — the original strips first,
then, for each candidate angle in order, one rotated variant of every
strip; every variant keeps the box reference of its original. -/
def make_rotated_img_list (rotationInfo : List Nat)
    (img_list : List (Box × CropImg)) : List (Box × CropImg) :=
  img_list ++
    (rotationInfo.map (fun a =>
      img_list.map (fun p => (p.1, CropImg.rotated p.2 a)))).flatten

/-- The Python slice `results[i::n]`: the elements at indices
`i, i+n, i+2n, …`. -/
def strideSlice (l : List Item) (i n : Nat) : List Item :=
  (List.range l.length).filterMap
    (fun j => if i ≤ j ∧ (j - i) % n = 0 then l[j]? else none)

/-- Confidence of a record, `0` when the record carries none (the error is
detected separately before this accessor matters). -/
def confV (it : Item) : ℚ := it.conf.getD 0

/-- `np.argmax` over the confidences of one orientation group: evaluating
a missing confidence (`result[2]` of a paragraph record) errors, the
empty group errors, otherwise the first record of maximal confidence is
selected. -/
def bestByConf (l : List Item) : Except PipeErr Item :=
  if l.any (fun it => it.conf.isNone) then .error .confMissing
  else
    match l with
    | [] => .error .emptyGroup
    | x :: xs => .ok (xs.foldl (fun best it => if confV best < confV it then it else best) x)

/-- Modelled from the spec: `utils.set_result_with_confidence` (not under
`src/`), the Orientation Ensemble collapse — results are grouped by
original box via the stride slices `results[i::image_len]` (matching the
expansion order of `make_rotated_img_list`) and each group is reduced to
its single best-confidence record, so exactly one record per original box
remains. -/
def set_result_with_confidence (results : List Item) (n : Nat) :
    Except PipeErr (List Item) :=
  (List.range n).mapM (fun i => bestByConf (strideSlice results i n))

/-- Insert a record into a list sorted by the top edge of its box. -/
def insertByY (it : Item) : List Item → List Item
  | [] => [it]
  | x :: xs =>
      if listMinI (it.box.map Prod.snd) < listMinI (x.box.map Prod.snd) then it :: x :: xs
      else x :: insertByY it xs

/-- Stable insertion sort by the top edge (top-to-bottom reading order). -/
def sortByY (l : List Item) : List Item := l.foldr insertByY []

/-- Insert a record into a list sorted by the left edge of its box. -/
def insertByX (it : Item) : List Item → List Item
  | [] => [it]
  | x :: xs =>
      if listMinI (it.box.map Prod.fst) < listMinI (x.box.map Prod.fst) then it :: x :: xs
      else x :: insertByX it xs

/-- Stable insertion sort by the left edge. -/
def sortByX (l : List Item) : List Item := l.foldr insertByX []

/-- Vertical/horizontal proximity of two recognized lines: the vertical
gap between `a`'s bottom edge and `b`'s top edge is below one line height
of `a`, and their horizontal extents overlap or are within one line
height of each other. -/
def closeTo (a b : Item) : Bool :=
  let ha := listMaxI (a.box.map Prod.snd) - listMinI (a.box.map Prod.snd)
  decide (listMinI (b.box.map Prod.snd) - listMaxI (a.box.map Prod.snd) ≤ ha) &&
  decide (listMinI (b.box.map Prod.fst) ≤ listMaxI (a.box.map Prod.fst) + ha) &&
  decide (listMinI (a.box.map Prod.fst) ≤ listMaxI (b.box.map Prod.fst) + ha)

/-- One step of greedy grouping over the vertically sorted records:
either the record joins the current paragraph (kept in reverse) or it
opens a new one. -/
def groupStep (acc : List (List Item)) (it : Item) : List (List Item) :=
  match acc with
  | [] => [[it]]
  | g :: rest =>
    match g with
    | [] => [it] :: rest
    | last :: _ => if closeTo last it then (it :: g) :: rest else [it] :: acc

/-- Union bounding quadrilateral of a paragraph's constituent boxes. -/
def paraBox (g : List Item) : Box :=
  let xs := (g.map (fun it => it.box.map Prod.fst)).flatten
  let ys := (g.map (fun it => it.box.map Prod.snd)).flatten
  [(listMinI xs, listMinI ys), (listMaxI xs, listMinI ys),
   (listMaxI xs, listMaxI ys), (listMinI xs, listMaxI ys)]

/-- Order a paragraph's lines for reading: left-to-right for `ltr`,
right-to-left for `rtl`. -/
def orderLine (mode : String) (g : List Item) : List Item :=
  let s := sortByX g
  if mode = "rtl" then s.reverse else s

/-- Modelled from the spec: `utils.get_paragraph` (not under `src/`), the
Paragraph Reconstructor — sort the recognized lines top-to-bottom, group
them greedily by vertical/horizontal proximity (the spec's fixed
clustering threshold is taken as one line height), and emit, per group,
one record holding the union bounding box and the texts of the group's
lines ordered by the reading direction and joined with single spaces.
Paragraph records carry no confidence. -/
def get_paragraph (result : List Item) (mode : String) : List Item :=
  let sorted := sortByY result
  let groups := ((sorted.foldl groupStep []).map List.reverse).reverse
  groups.map (fun g =>
    { box := paraBox g, text := String.intercalate " " ((orderLine mode g).map Item.text),
      conf := none })

/-- The recognition-model languages for which `recognize` silently forces
the `'greedy'` decoder (`easyocr.py` line 325). -/
def cjkModels : List String := ["chinese_tra", "chinese_sim", "japanese", "korean"]

/-- The right-to-left recognition models.  Of the models selectable in
`Reader.__init__` (latin, arabic, cyrillic, devanagari, bengali,
chinese_tra, chinese_sim, japanese, korean, tamil, telugu, kannada,
thai), exactly the arabic model (covering ar/fa/ur/ug) is a right-to-left
script model; `recognize` tests for it by name. -/
def rtlModels : List String := ["arabic"]

/-- The reading-direction mode chosen by `recognize`
(`easyocr.py` lines 330–336). -/
def dirMode (r : Reader) : String :=
  if r.model_lang = "arabic" then "rtl" else "ltr"

/-- The right-to-left display pass of `recognize`: for the arabic model
every result text goes through `get_display`; otherwise the results are
untouched. -/
def bidiPass (o : Oracles) (r : Reader) (result : List Item) : List Item :=
  if r.model_lang = "arabic" then
    result.map (fun it => { it with text := o.bidi it.text })
  else result

/-- The final trimming of `recognize` (`easyocr.py` lines 344–347):
text-only for `detail == 0`, full records otherwise. -/
def detailOut (detail : Nat) (items : List Item) : RecogOut :=
  if detail = 0 then .textOnly (items.map Item.text) else .full items

/-- The tail of `recognize` (`easyocr.py` lines 341–347): the Orientation
Ensemble collapse when rotation is active, then the detail trimming. -/
def finishResult (rotActive : Bool) (result : List Item)
    (image_len detail : Nat) : Except PipeErr RecogOut :=
  match (if rotActive then set_result_with_confidence result image_len
         else .ok result) with
  | .error e => .error e
  | .ok res => .ok (detailOut detail res)

/-- The crop list built by `recognize` (`easyocr.py` lines 305–312): with
both box lists equal to `None` the whole image becomes a single region
(the full-image quadrilateral paired with the image resized to height
`imgH` and width `int(imgH * x_max / y_max)`); otherwise the Crop
Normalizer runs on the supplied lists. -/
def buildImageList (g : GreyImg) (hl : Option (List HBox))
    (fl : Option (List FBox)) : List (Box × CropImg) × Nat :=
  match hl, fl with
  | none, none =>
      let mw := imgH * g.w / g.h
      ([([(0, 0), ((g.w : Int), 0), ((g.w : Int), (g.h : Int)), (0, (g.h : Int))],
         CropImg.resized g mw imgH)], mw)
  | hl, fl => get_image_list (hl.getD []) (fl.getD []) g imgH

/-- The parameter record handed to the recognizer oracle by `get_text`. -/
def mkParams (r : Reader) (max_width : Nat) (ignore : Finset Char)
    (decoder : String) (beamWidth batch_size : Nat)
    (contrast_ths adjust_contrast filter_ths : ℚ) (workers : Nat) : RecParams :=
  { character := r.character, height := imgH, max_width := max_width,
    ignore := ignore, decoder := decoder, beamWidth := beamWidth,
    batch_size := batch_size, contrast_ths := contrast_ths,
    adjust_contrast := adjust_contrast, filter_ths := filter_ths,
    workers := workers, device := r.device }

/-- `recognition.get_text` through the recognizer-oracle contract of the
spec (one `(text, confidence)` output per input crop, batch order
preserved): each crop of the batch is recognized with the given
parameters and keeps its box reference. -/
def get_text (o : Oracles) (p : RecParams)
    (image_list : List (Box × CropImg)) : List Item :=
  image_list.map (fun bc =>
    { box := bc.1, text := (o.recOne p bc.2).1, conf := some (o.recOne p bc.2).2 })

/-- `Reader.recognize` (`easyocr.py` lines 294–347), line by line:
reformat if requested; build the crop list (full-image region when both
box lists are `None`); build the character-ignore filter; remember the
pre-expansion crop count; expand rotation variants when rotation hints
are supplied and the crop list is non-empty; force the greedy decoder for
the CJK models; run the recognizer; apply right-to-left display
reordering for the arabic model; optionally reconstruct paragraphs; apply
the Orientation Ensemble collapse when rotation is active; trim to the
requested detail. -/
def recognize (o : Oracles) (r : Reader) (img_cv_grey : GreyImg)
    (horizontal_list : Option (List HBox)) (free_list : Option (List FBox))
    (decoder : String) (beamWidth batch_size workers : Nat)
    (allowlist blocklist : Option (List Char)) (detail : Nat)
    (rotation_info : List Nat) (paragraph : Bool)
    (contrast_ths adjust_contrast filter_ths : ℚ) (reformat : Bool) :
    Except PipeErr RecogOut :=
  let g := if reformat then (o.reformat img_cv_grey).2 else img_cv_grey
  let ilmw := buildImageList g horizontal_list free_list
  let ignore := ignoreChar r.character r.lang_char allowlist blocklist
  let image_len := ilmw.1.length
  let image_list :=
    if !rotation_info.isEmpty && !ilmw.1.isEmpty then
      make_rotated_img_list rotation_info ilmw.1
    else ilmw.1
  let dec := if r.model_lang ∈ cjkModels then "greedy" else decoder
  let result := get_text o
    (mkParams r ilmw.2 ignore dec beamWidth batch_size contrast_ths
      adjust_contrast filter_ths workers) image_list
  let result := bidiPass o r result
  let result := if paragraph then get_paragraph result (dirMode r) else result
  finishResult (!rotation_info.isEmpty && !image_list.isEmpty) result image_len detail

/-- Definition following the words of claim C1: identical to `recognize`
except that the Orientation Ensemble collapse is applied *before* the
Paragraph Reconstructor is optionally invoked, so that paragraph grouping
would operate on already-collapsed results. -/
def recognizeCollapseFirst (o : Oracles) (r : Reader) (img_cv_grey : GreyImg)
    (horizontal_list : Option (List HBox)) (free_list : Option (List FBox))
    (decoder : String) (beamWidth batch_size workers : Nat)
    (allowlist blocklist : Option (List Char)) (detail : Nat)
    (rotation_info : List Nat) (paragraph : Bool)
    (contrast_ths adjust_contrast filter_ths : ℚ) (reformat : Bool) :
    Except PipeErr RecogOut :=
  let g := if reformat then (o.reformat img_cv_grey).2 else img_cv_grey
  let ilmw := buildImageList g horizontal_list free_list
  let ignore := ignoreChar r.character r.lang_char allowlist blocklist
  let image_len := ilmw.1.length
  let image_list :=
    if !rotation_info.isEmpty && !ilmw.1.isEmpty then
      make_rotated_img_list rotation_info ilmw.1
    else ilmw.1
  let dec := if r.model_lang ∈ cjkModels then "greedy" else decoder
  let result := get_text o
    (mkParams r ilmw.2 ignore dec beamWidth batch_size contrast_ths
      adjust_contrast filter_ths workers) image_list
  let result := bidiPass o r result
  match (if !rotation_info.isEmpty && !image_list.isEmpty then
           set_result_with_confidence result image_len
         else .ok result) with
  | .error e => .error e
  | .ok res =>
      let res := if paragraph then get_paragraph res (dirMode r) else res
      .ok (detailOut detail res)

/-- `Reader.readtext` (`easyocr.py` lines 349–376): reformat the input
image once, run `detect` with `reformat=False`, then run `recognize` on
the grayscale image with the detected box lists and `reformat=False`. -/
def readtext (o : Oracles) (r : Reader) (image : GreyImg)
    (decoder : String) (beamWidth batch_size workers : Nat)
    (allowlist blocklist : Option (List Char)) (detail : Nat)
    (rotation_info : List Nat) (paragraph : Bool) (min_size : Nat)
    (contrast_ths adjust_contrast filter_ths : ℚ)
    (text_threshold low_text link_threshold : ℚ) (canvas_size : Nat)
    (mag_ratio slope_ths ycenter_ths height_ths width_ths add_margin : ℚ) :
    Except PipeErr RecogOut :=
  let imgs := o.reformat image
  let hf := detect o r imgs.1 min_size text_threshold low_text link_threshold
    canvas_size mag_ratio slope_ths ycenter_ths height_ths width_ths
    add_margin false none
  recognize o r imgs.2 (some hf.1) (some hf.2) decoder beamWidth batch_size
    workers allowlist blocklist detail rotation_info paragraph contrast_ths
    adjust_contrast filter_ths false

/-- `Reader.detect` in method form: the instance is threaded explicitly,
and — the source method containing no assignment to `self` — is returned
unchanged next to the result. -/
def detectM (o : Oracles) (r : Reader) (img : GreyImg) (min_size : Nat)
    (text_threshold low_text link_threshold : ℚ) (canvas_size : Nat)
    (mag_ratio slope_ths ycenter_ths height_ths width_ths add_margin : ℚ)
    (reformat : Bool) (optimal_num_chars : Option Nat) :
    (List HBox × List FBox) × Reader :=
  (detect o r img min_size text_threshold low_text link_threshold canvas_size
    mag_ratio slope_ths ycenter_ths height_ths width_ths add_margin reformat
    optimal_num_chars, r)

/-- `Reader.recognize` in method form (no assignment to `self` in the
source, so the instance is returned unchanged). -/
def recognizeM (o : Oracles) (r : Reader) (img_cv_grey : GreyImg)
    (horizontal_list : Option (List HBox)) (free_list : Option (List FBox))
    (decoder : String) (beamWidth batch_size workers : Nat)
    (allowlist blocklist : Option (List Char)) (detail : Nat)
    (rotation_info : List Nat) (paragraph : Bool)
    (contrast_ths adjust_contrast filter_ths : ℚ) (reformat : Bool) :
    Except PipeErr RecogOut × Reader :=
  (recognize o r img_cv_grey horizontal_list free_list decoder beamWidth
    batch_size workers allowlist blocklist detail rotation_info paragraph
    contrast_ths adjust_contrast filter_ths reformat, r)

/-- `Reader.readtext` in method form (no assignment to `self` in the
source, so the instance is returned unchanged). -/
def readtextM (o : Oracles) (r : Reader) (image : GreyImg)
    (decoder : String) (beamWidth batch_size workers : Nat)
    (allowlist blocklist : Option (List Char)) (detail : Nat)
    (rotation_info : List Nat) (paragraph : Bool) (min_size : Nat)
    (contrast_ths adjust_contrast filter_ths : ℚ)
    (text_threshold low_text link_threshold : ℚ) (canvas_size : Nat)
    (mag_ratio slope_ths ycenter_ths height_ths width_ths add_margin : ℚ) :
    Except PipeErr RecogOut × Reader :=
  (readtext o r image decoder beamWidth batch_size workers allowlist blocklist
    detail rotation_info paragraph min_size contrast_ths adjust_contrast
    filter_ths text_threshold low_text link_threshold canvas_size mag_ratio
    slope_ths ycenter_ths height_ths width_ths add_margin, r)

/-- The environment `Reader.__init__` (standard `recog_network`) runs in:
presence and integrity of the two model files on disk, and the language
tables of `config.py` (repository code not under `src/`; the group lists
are therefore carried abstractly and each theorem quantifies over them). -/
structure InitEnv where
  detectorPresent : Bool
  detectorMd5ok : Bool
  recogPresent : Bool
  recogMd5ok : Bool
  all_lang_list : List String
  bengali_lang_list : List String
  arabic_lang_list : List String
  devanagari_lang_list : List String
  cyrillic_lang_list : List String
  deriving DecidableEq, Repr

/-- The exceptions `Reader.__init__` can raise before any image
processing: `FileNotFoundError` (missing model file or MD5 mismatch with
downloads disabled) and `ValueError` (unsupported language or language
combination). -/
inductive InitError where
  | fileNotFound
  | valueError
  deriving DecidableEq, Repr

/-- The model-file check of `Reader.__init__` (`easyocr.py` lines 77–95
for the detector, 200–219 for the recognizer): a missing file, or a file
with the wrong MD5, raises `FileNotFoundError` when downloads are
disabled; with downloads enabled the file is (re-)downloaded (the
download and its MD5 assertion are modelled as succeeding, since network
behaviour is outside the embedding). -/
def checkModelFile (present md5ok dl : Bool) : Except InitError Unit :=
  if present = false then
    (if dl = false then .error .fileNotFound else .ok ())
  else if md5ok = false then
    (if dl = false then .error .fileNotFound else .ok ())
  else .ok ()

/-- `Reader.setModelLanguage` (`easyocr.py` lines 248–253): record the
chosen model language, raising `ValueError` when the requested language
list contains a language outside the model's compatible list. -/
def setModelLanguage (language : String) (lang_list list_lang : List String) :
    Except InitError String :=
  if lang_list.any (fun l => decide (l ∉ list_lang)) then .error .valueError
  else .ok language

/-- The recognition-model selection chain of `Reader.__init__`
(`easyocr.py` lines 116–141): the first matching language group wins, and
each group carries its compatible-language list; when nothing matches the
latin model is chosen (with no compatibility restriction). -/
def modelChoice (env : InitEnv) (lang_list : List String) : String × List String :=
  if "th" ∈ lang_list then ("thai", ["th", "en"])
  else if "ch_tra" ∈ lang_list then ("chinese_tra", ["ch_tra", "en"])
  else if "ch_sim" ∈ lang_list then ("chinese_sim", ["ch_sim", "en"])
  else if "ja" ∈ lang_list then ("japanese", ["ja", "en"])
  else if "ko" ∈ lang_list then ("korean", ["ko", "en"])
  else if "ta" ∈ lang_list then ("tamil", ["ta", "en"])
  else if "te" ∈ lang_list then ("telugu", ["te", "en"])
  else if "kn" ∈ lang_list then ("kannada", ["kn", "en"])
  else if lang_list.any (· ∈ env.bengali_lang_list) then
    ("bengali", env.bengali_lang_list ++ ["en"])
  else if lang_list.any (· ∈ env.arabic_lang_list) then
    ("arabic", env.arabic_lang_list ++ ["en"])
  else if lang_list.any (· ∈ env.devanagari_lang_list) then
    ("devanagari", env.devanagari_lang_list ++ ["en"])
  else if lang_list.any (· ∈ env.cyrillic_lang_list) then
    ("cyrillic", env.cyrillic_lang_list ++ ["en"])
  else ("latin", lang_list)

/-- The model-language decision of `Reader.__init__`: every non-latin
branch goes through `setModelLanguage` with its compatible list; the
latin fallback performs no compatibility check. -/
def chooseModelLang (env : InitEnv) (lang_list : List String) :
    Except InitError String :=
  let mc := modelChoice env lang_list
  if mc.1 = "latin" then .ok "latin"
  else setModelLanguage mc.1 lang_list mc.2

/-- `Reader.__init__` for the standard `recog_network` (`easyocr.py`
lines 31–246), reduced to its decision structure in source order: the
detector model-file check (when a detector is requested), then the
unknown-language check (`set(lang_list) - set(all_lang_list)`), then the
model-selection chain with its compatibility checks, then the
recognition model-file check (when a recognizer is requested).  A
`.error` result means construction raised before any image processing,
so no `Reader` value exists on which `detect`, `recognize` or `readtext`
could be invoked. -/
def readerInit (env : InitEnv) (lang_list : List String)
    (download_enabled detector recognizer : Bool) : Except InitError String :=
  match (if detector then checkModelFile env.detectorPresent env.detectorMd5ok download_enabled
         else .ok ()) with
  | .error e => .error e
  | .ok _ =>
    if lang_list.any (fun l => decide (l ∉ env.all_lang_list)) then .error .valueError
    else
      match chooseModelLang env lang_list with
      | .error e => .error e
      | .ok ml =>
        match (if recognizer then checkModelFile env.recogPresent env.recogMd5ok download_enabled
               else .ok ()) with
        | .error e => .error e
        | .ok _ => .ok ml

/-- A 10×10 grayscale image used by the concrete instances. -/
def gEx : GreyImg := ⟨10, 10⟩

/-- A 10×5 horizontal box used by the concrete instances. -/
def bEx : HBox := ⟨0, 10, 0, 5⟩

/-- A latin-model reader configuration used by the concrete instances. -/
def rEx : Reader :=
  { character := ['a', 'b'], lang_char := ['a'], model_lang := "latin", device := "cpu" }

/-- A japanese-model reader configuration (CJK decoder override). -/
def rJa : Reader := { rEx with model_lang := "japanese" }

/-- Concrete oracles: reformatting and bidi are identities, the detector
and clusterer return nothing, and the recognizer reports confidence 3/4
on rotated variants and 1/2 otherwise. -/
def oEx : Oracles :=
  { reformat := fun g => (g, g),
    get_textbox := fun _ _ _ _ _ _ _ _ _ => [],
    group_text_box := fun _ _ _ _ _ _ _ => ([], []),
    recOne := fun _ c =>
      match c with
      | .rotated _ _ => ("rot", 3/4)
      | _ => ("base", 1/2),
    bidi := fun s => s }

/-- Oracles whose clusterer yields a single 20×10 horizontal box. -/
def oC2 : Oracles :=
  { oEx with group_text_box := fun _ _ _ _ _ _ _ => ([⟨0, 20, 0, 10⟩], []) }

/-- Oracles whose clusterer yields a 20×10 box and a 21×5 box. -/
def oC2w : Oracles :=
  { oEx with group_text_box := fun _ _ _ _ _ _ _ => ([⟨0, 20, 0, 10⟩, ⟨0, 21, 0, 5⟩], []) }

/-- A concrete `Reader.__init__` environment: both model files present
and intact, and small concrete language tables. -/
def envEx : InitEnv :=
  { detectorPresent := true, detectorMd5ok := true,
    recogPresent := true, recogMd5ok := true,
    all_lang_list := ["en", "fr", "th", "ja", "ar"],
    bengali_lang_list := ["bn", "as"],
    arabic_lang_list := ["ar", "fa", "ur", "ug"],
    devanagari_lang_list := ["hi", "mr", "ne"],
    cyrillic_lang_list := ["ru", "uk"] }

/-- Decidable equality of pipeline outcomes (for concrete evaluation). -/
instance : DecidableEq (Except PipeErr RecogOut) := fun a b =>
  match a, b with
  | .error e1, .error e2 =>
      if h : e1 = e2 then .isTrue (by rw [h]) else .isFalse (by simp [h])
  | .ok v1, .ok v2 =>
      if h : v1 = v2 then .isTrue (by rw [h]) else .isFalse (by simp [h])
  | .error _, .ok _ => .isFalse (by simp)
  | .ok _, .error _ => .isFalse (by simp)

/-! ## Helper lemmas -/

theorem strideSlice_subset {l : List Item} {i n : Nat} {x : Item}
    (h : x ∈ strideSlice l i n) : x ∈ l := by
  simp only [strideSlice, List.mem_filterMap] at h
  obtain ⟨j, _, hj⟩ := h
  by_cases hc : i ≤ j ∧ (j - i) % n = 0
  · rw [if_pos hc] at hj
    exact List.getElem?_mem hj
  · rw [if_neg hc] at hj
    cases hj

theorem strideSlice_ne_nil {l : List Item} {i : Nat} (n : Nat) (h : i < l.length) :
    strideSlice l i n ≠ [] := by
  intro hnil
  rw [strideSlice, List.filterMap_eq_nil_iff] at hnil
  have h0 := hnil i (List.mem_range.mpr h)
  rw [if_pos ⟨Nat.le_refl i, by simp⟩, List.getElem?_eq_getElem h] at h0
  cases h0

theorem bestByConf_ok {l : List Item} (hne : l ≠ [])
    (hc : ∀ it ∈ l, it.conf ≠ none) : ∃ b, bestByConf l = .ok b := by
  have hany : l.any (fun it => it.conf.isNone) = false := by
    rw [List.any_eq_false]
    intro it hit
    have h := hc it hit
    cases hconf : it.conf
    · exact absurd hconf h
    · simp [hconf]
  obtain ⟨x, xs, rfl⟩ := List.exists_cons_of_ne_nil hne
  exact ⟨xs.foldl (fun best it => if confV best < confV it then it else best) x,
    by simp [bestByConf, hany]⟩

theorem bestByConf_confMissing {l : List Item} (hne : l ≠ [])
    (hc : ∀ it ∈ l, it.conf = none) : bestByConf l = .error .confMissing := by
  obtain ⟨x, xs, rfl⟩ := List.exists_cons_of_ne_nil hne
  have hany : (x :: xs).any (fun it => it.conf.isNone) = true := by
    rw [List.any_eq_true]
    exact ⟨x, List.mem_cons_self x xs, by simp [hc x (List.mem_cons_self x xs)]⟩
  simp [bestByConf, hany]

theorem mapM_ok_of_forall {α β : Type} (f : α → Except PipeErr β) :
    ∀ l : List α, (∀ a ∈ l, ∃ b, f a = .ok b) →
      ∃ bs : List β, l.mapM f = .ok bs ∧ bs.length = l.length := by
  intro l
  induction l with
  | nil => exact fun _ => ⟨[], rfl, rfl⟩
  | cons a as ih =>
    intro h
    obtain ⟨b, hb⟩ := h a (List.mem_cons_self a as)
    obtain ⟨bs, hbs, hlen⟩ := ih (fun x hx => h x (List.mem_cons_of_mem _ hx))
    refine ⟨b :: bs, ?_, by simp [hlen]⟩
    rw [List.mapM_cons, hb, hbs]
    rfl

theorem set_result_ok {l : List Item} {n : Nat} (hn : n ≤ l.length)
    (hc : ∀ it ∈ l, it.conf ≠ none) :
    ∃ out, set_result_with_confidence l n = .ok out ∧ out.length = n := by
  obtain ⟨bs, hbs, hlen⟩ :=
    mapM_ok_of_forall (fun i => bestByConf (strideSlice l i n)) (List.range n)
      (fun i hi =>
        bestByConf_ok (strideSlice_ne_nil n (Nat.lt_of_lt_of_le (List.mem_range.mp hi) hn))
          (fun it hit => hc it (strideSlice_subset hit)))
  exact ⟨bs, hbs, by simpa using hlen⟩

theorem set_result_confMissing {l : List Item} {n : Nat} (hn : 0 < n)
    (hne : l ≠ []) (hc : ∀ it ∈ l, it.conf = none) :
    set_result_with_confidence l n = .error .confMissing := by
  obtain ⟨m, rfl⟩ : ∃ m, n = m + 1 := ⟨n - 1, (Nat.succ_pred_eq_of_pos hn).symm⟩
  have h0 : bestByConf (strideSlice l 0 (m + 1)) = .error .confMissing :=
    bestByConf_confMissing (strideSlice_ne_nil _ (List.length_pos.mpr hne))
      (fun it hit => hc it (strideSlice_subset hit))
  unfold set_result_with_confidence
  rw [List.range_succ_eq_map, List.mapM_cons, h0]
  rfl

theorem get_text_length (o : Oracles) (p : RecParams) (il : List (Box × CropImg)) :
    (get_text o p il).length = il.length := by
  simp [get_text]

theorem get_text_conf {o : Oracles} {p : RecParams} {il : List (Box × CropImg)}
    {it : Item} (h : it ∈ get_text o p il) : it.conf ≠ none := by
  simp only [get_text, List.mem_map] at h
  obtain ⟨bc, _, rfl⟩ := h
  simp

theorem bidiPass_length (o : Oracles) (r : Reader) (l : List Item) :
    (bidiPass o r l).length = l.length := by
  rw [bidiPass]
  split <;> simp

theorem bidiPass_conf {o : Oracles} {r : Reader} {l : List Item}
    (hc : ∀ it ∈ l, it.conf ≠ none) : ∀ it ∈ bidiPass o r l, it.conf ≠ none := by
  intro it hit
  rw [bidiPass] at hit
  by_cases h : r.model_lang = "arabic"
  · rw [if_pos h] at hit
    obtain ⟨it', hit', rfl⟩ := List.mem_map.mp hit
    simpa using hc it' hit'
  · rw [if_neg h] at hit
    exact hc it hit

theorem length_le_make_rotated (rot : List Nat) (il : List (Box × CropImg)) :
    il.length ≤ (make_rotated_img_list rot il).length := by
  simp [make_rotated_img_list]

theorem insertByY_ne_nil (it : Item) (l : List Item) : insertByY it l ≠ [] := by
  cases l with
  | nil => simp [insertByY]
  | cons x xs =>
    rw [insertByY]
    split <;> simp

theorem sortByY_ne_nil {l : List Item} (h : l ≠ []) : sortByY l ≠ [] := by
  obtain ⟨x, xs, rfl⟩ := List.exists_cons_of_ne_nil h
  rw [sortByY, List.foldr_cons]
  exact insertByY_ne_nil _ _

theorem groupStep_ne_nil (acc : List (List Item)) (it : Item) :
    groupStep acc it ≠ [] := by
  cases acc with
  | nil => simp [groupStep]
  | cons g rest =>
    cases g with
    | nil => simp [groupStep]
    | cons last gs =>
      simp only [groupStep]
      split <;> simp

theorem foldl_groupStep_ne_nil (l : List Item) (acc : List (List Item))
    (h : acc ≠ [] ∨ l ≠ []) : l.foldl groupStep acc ≠ [] := by
  induction l generalizing acc with
  | nil =>
    rw [List.foldl_nil]
    exact h.resolve_right (fun hh => hh rfl)
  | cons x xs ih =>
    rw [List.foldl_cons]
    exact ih (groupStep acc x) (Or.inl (groupStep_ne_nil acc x))

theorem get_paragraph_ne_nil {l : List Item} (h : l ≠ []) (mode : String) :
    get_paragraph l mode ≠ [] := by
  have hf : (sortByY l).foldl groupStep [] ≠ [] :=
    foldl_groupStep_ne_nil _ _ (Or.inr (sortByY_ne_nil h))
  simpa [get_paragraph] using hf

theorem get_paragraph_conf (l : List Item) (mode : String) :
    ∀ it ∈ get_paragraph l mode, it.conf = none := by
  intro it hit
  simp only [get_paragraph, List.mem_map] at hit
  obtain ⟨g, _, rfl⟩ := hit
  rfl

theorem finishResult_ok_of {result : List Item} {n : Nat} (detail : Nat)
    (hn : n ≤ result.length) (hc : ∀ it ∈ result, it.conf ≠ none) :
    ∃ items, finishResult true result n detail = .ok (detailOut detail items)
      ∧ items.length = n := by
  obtain ⟨out, hout, hlen⟩ := set_result_ok hn hc
  exact ⟨out, by simp [finishResult, hout], hlen⟩

theorem finishResult_confMissing {l : List Item} {n : Nat} (detail : Nat)
    (hn : 0 < n) (hne : l ≠ []) (hc : ∀ it ∈ l, it.conf = none) :
    finishResult true l n detail = .error .confMissing := by
  simp [finishResult, set_result_confMissing hn hne hc]

theorem recognize_unfold_rot (o : Oracles) (r : Reader) (g : GreyImg)
    (hl : Option (List HBox)) (fl : Option (List FBox)) (dec : String)
    (bw bs wk : Nat) (al bl : Option (List Char)) (detail : Nat)
    (rot : List Nat) (par : Bool) (cths acths fths : ℚ)
    (hrotb : rot.isEmpty = false)
    (hILb : (buildImageList g hl fl).1.isEmpty = false)
    (hEXPb : (make_rotated_img_list rot (buildImageList g hl fl).1).isEmpty = false) :
    recognize o r g hl fl dec bw bs wk al bl detail rot par cths acths fths false
      = finishResult true
          (let res := bidiPass o r (get_text o
              (mkParams r (buildImageList g hl fl).2
                (ignoreChar r.character r.lang_char al bl)
                (if r.model_lang ∈ cjkModels then "greedy" else dec)
                bw bs cths acths fths wk)
              (make_rotated_img_list rot (buildImageList g hl fl).1))
           if par then get_paragraph res (dirMode r) else res)
          (buildImageList g hl fl).1.length detail := by
  simp [recognize, hrotb, hILb, hEXPb]

/-! ## Claim theorems -/

/-- C2 counterexample: in `detect` with `min_size = 20`, the clusterer
output contains a box of maximum dimension exactly `20` — by the claim a
box "whose maximum dimension equals min_size is not filtered out" — yet
`detect` returns the empty horizontal list: the code's filter uses a
strict `>` comparison, refuting the claim as stated. -/
theorem detect_drops_box_of_size_min_size :
    (oC2.group_text_box [] 0 0 0 0 0 true).1 = [⟨0, 20, 0, 10⟩]
  ∧ max ((20 : Int) - 0) ((10 : Int) - 0) = 20
  ∧ (detect oC2 rEx gEx 20 0 0 0 0 0 0 0 0 0 0 false none).1 = [] := by
  decide

/-- C2 (amended): for every box list produced by the clusterer inside
`detect` and every non-zero `min_size`, a box is kept in `detect`'s
output if and only if its size — the maximum of its width and height
(coordinate extents, for a free-form box) — is strictly greater than
`min_size`; a box whose maximum dimension equals `min_size` is filtered
out. -/
theorem detect_min_size_strict (o : Oracles) (r : Reader) (img : GreyImg)
    (ms : Nat) (tth lwt lth : ℚ) (cs : Nat) (mr s y hths wths am : ℚ)
    (onc : Option Nat) (hms : ms ≠ 0) :
    (∀ b : HBox,
        b ∈ (detect o r img ms tth lwt lth cs mr s y hths wths am false onc).1
      ↔ b ∈ (o.group_text_box (o.get_textbox img cs mr tth lth lwt false r.device onc)
              s y hths wths am onc.isNone).1
          ∧ max (b.x1 - b.x0) (b.y1 - b.y0) > (ms : Int))
  ∧ (∀ c : FBox,
        c ∈ (detect o r img ms tth lwt lth cs mr s y hths wths am false onc).2
      ↔ c ∈ (o.group_text_box (o.get_textbox img cs mr tth lth lwt false r.device onc)
              s y hths wths am onc.isNone).2
          ∧ max (diff (c.map Prod.fst)) (diff (c.map Prod.snd)) > (ms : Int)) := by
  constructor
  · intro b
    simp [detect, hms, List.mem_filter]
  · intro c
    simp [detect, hms, List.mem_filter]

/-- C2 witness: a concrete 21-wide box is strictly larger than
`min_size = 20` and is kept by `detect`. -/
theorem detect_min_size_strict_inst :
    (⟨0, 21, 0, 5⟩ : HBox) ∈ (detect oC2w rEx gEx 20 0 0 0 0 0 0 0 0 0 0 false none).1 :=
  ((detect_min_size_strict oC2w rEx gEx 20 0 0 0 0 0 0 0 0 0 0 none
    (by decide)).1 ⟨0, 21, 0, 5⟩).mpr (by decide)

/-- C4: in `recognize` (no rotation hints, full detail), every result
text is passed through the bidirectional-reordering oracle if and only if
the active language model is right-to-left (of the selectable models,
exactly `arabic`), and in exactly that case the Paragraph Reconstructor
is invoked with reading-direction mode `rtl`, otherwise `ltr`. -/
theorem recognize_rtl_display_iff (o : Oracles) (r : Reader) (g : GreyImg)
    (l1 : List HBox) (l2 : List FBox) (decoder : String) (bw bs wk : Nat)
    (al bl : Option (List Char)) (cths acths fths : ℚ) :
    (recognize o r g (some l1) (some l2) decoder bw bs wk al bl 1 [] false cths acths fths false
      = .ok (.full ((get_text o (mkParams r (buildImageList g (some l1) (some l2)).2
            (ignoreChar r.character r.lang_char al bl)
            (if r.model_lang ∈ cjkModels then "greedy" else decoder) bw bs cths acths fths wk)
            (buildImageList g (some l1) (some l2)).1).map
          (fun it => if r.model_lang ∈ rtlModels then { it with text := o.bidi it.text } else it))))
  ∧ (recognize o r g (some l1) (some l2) decoder bw bs wk al bl 1 [] true cths acths fths false
      = .ok (.full (get_paragraph
          ((get_text o (mkParams r (buildImageList g (some l1) (some l2)).2
              (ignoreChar r.character r.lang_char al bl)
              (if r.model_lang ∈ cjkModels then "greedy" else decoder) bw bs cths acths fths wk)
              (buildImageList g (some l1) (some l2)).1).map
            (fun it => if r.model_lang ∈ rtlModels then { it with text := o.bidi it.text } else it))
          (if r.model_lang ∈ rtlModels then "rtl" else "ltr")))) := by
  by_cases h : r.model_lang = "arabic"
  · constructor <;>
      simp [recognize, bidiPass, dirMode, finishResult, detailOut, rtlModels, h]
  · constructor <;>
      simp [recognize, bidiPass, dirMode, finishResult, detailOut, rtlModels, h, List.map_id']

/-- C5 counterexample: with an allowlist that is supplied but empty and a
non-empty blocklist, the filter is the blocklist set, not the character
set minus the (empty) allowlist: a supplied allowlist does not always
take precedence, refuting the claim as stated. -/
theorem ignoreChar_empty_allowlist_cex :
    ignoreChar ['a', 'b'] ['a'] (some []) (some ['b'])
      ≠ (['a', 'b'] : List Char).toFinset \ ([] : List Char).toFinset := by
  decide

/-- C5 (amended): the character-ignore filter used by `recognize` is
derived by set-difference, with Python truthiness deciding which branch
applies: a *non-empty* allowlist yields the model's character set minus
the allowlist (taking precedence over any blocklist); otherwise a
*non-empty* blocklist yields the blocklist's character set; otherwise the
filter is the model's character set minus the requested languages' native
character set.  An empty allowlist or blocklist behaves as not
supplied. -/
theorem ignoreChar_set_difference (character lang_char al bl : List Char)
    (obl : Option (List Char)) (hal : al ≠ []) (hbl : bl ≠ []) :
    ignoreChar character lang_char (some al) obl = character.toFinset \ al.toFinset
  ∧ ignoreChar character lang_char none (some bl) = bl.toFinset
  ∧ ignoreChar character lang_char (some []) (some bl) = bl.toFinset
  ∧ ignoreChar character lang_char none none = character.toFinset \ lang_char.toFinset
  ∧ ignoreChar character lang_char (some []) none = character.toFinset \ lang_char.toFinset := by
  refine ⟨?_, ?_, ?_, ?_, ?_⟩ <;> simp [ignoreChar, truthy, hal, hbl]

/-- C5 witness: the amended rules at concrete lists. -/
theorem ignoreChar_set_difference_inst :
    ignoreChar ['a', 'b'] ['a'] (some ['b']) (some ['a'])
        = (['a', 'b'] : List Char).toFinset \ (['b'] : List Char).toFinset
  ∧ ignoreChar ['a', 'b'] ['a'] none (some ['a']) = (['a'] : List Char).toFinset
  ∧ ignoreChar ['a', 'b'] ['a'] (some []) (some ['a']) = (['a'] : List Char).toFinset
  ∧ ignoreChar ['a', 'b'] ['a'] none none
        = (['a', 'b'] : List Char).toFinset \ (['a'] : List Char).toFinset
  ∧ ignoreChar ['a', 'b'] ['a'] (some []) none
        = (['a', 'b'] : List Char).toFinset \ (['a'] : List Char).toFinset :=
  ignoreChar_set_difference ['a', 'b'] ['a'] ['b'] ['a'] (some ['a'])
    (by decide) (by decide)

/-- C7: `readtext` is exactly the composition of `detect` followed by
`recognize`: the image is reformatted once up front, `detect` runs on the
color image and `recognize` on the grayscale image with the detected box
lists, and both sub-calls are invoked with `reformat` disabled. -/
theorem readtext_is_detect_then_recognize (o : Oracles) (r : Reader) (image : GreyImg)
    (decoder : String) (bw bs wk : Nat) (al bl : Option (List Char)) (detail : Nat)
    (rot : List Nat) (par : Bool) (ms : Nat) (cths acths fths : ℚ)
    (tth lwt lth : ℚ) (cs : Nat) (mr s y hths wths am : ℚ) :
    readtext o r image decoder bw bs wk al bl detail rot par ms cths acths fths
        tth lwt lth cs mr s y hths wths am
      = recognize o r (o.reformat image).2
          (some (detect o r (o.reformat image).1 ms tth lwt lth cs mr s y hths wths am false none).1)
          (some (detect o r (o.reformat image).1 ms tth lwt lth cs mr s y hths wths am false none).2)
          decoder bw bs wk al bl detail rot par cths acths fths false := rfl

/-- C8: `detect`, `recognize` and `readtext` mutate no persistent
`Reader` state: in method form, the instance (character set, lang_char,
model_lang, device — the source methods contain no assignment to `self`)
is unchanged after each call returns. -/
theorem reader_state_unchanged (o : Oracles) (r : Reader) (img : GreyImg)
    (hl : Option (List HBox)) (fl : Option (List FBox)) (decoder : String)
    (bw bs wk : Nat) (al bl : Option (List Char)) (detail : Nat)
    (rot : List Nat) (par : Bool) (ms : Nat) (cths acths fths : ℚ)
    (tth lwt lth : ℚ) (cs : Nat) (mr s y hths wths am : ℚ)
    (reformat : Bool) (onc : Option Nat) :
    (detectM o r img ms tth lwt lth cs mr s y hths wths am reformat onc).2 = r
  ∧ (recognizeM o r img hl fl decoder bw bs wk al bl detail rot par cths acths fths reformat).2 = r
  ∧ (readtextM o r img decoder bw bs wk al bl detail rot par ms cths acths fths
      tth lwt lth cs mr s y hths wths am).2 = r :=
  ⟨rfl, rfl, rfl⟩

/-- C9: when the active language model is one of `chinese_tra`,
`chinese_sim`, `japanese`, `korean`, the decoder argument supplied by the
caller is irrelevant: `recognize` forces the `'greedy'` decoding
strategy, so any two decoder choices give identical results. -/
theorem recognize_cjk_forces_greedy (o : Oracles) (r : Reader) (g : GreyImg)
    (hl : Option (List HBox)) (fl : Option (List FBox)) (d1 d2 : String)
    (bw bs wk : Nat) (al bl : Option (List Char)) (detail : Nat)
    (rot : List Nat) (par : Bool) (cths acths fths : ℚ) (reformat : Bool)
    (h : r.model_lang ∈ cjkModels) :
    recognize o r g hl fl d1 bw bs wk al bl detail rot par cths acths fths reformat
      = recognize o r g hl fl d2 bw bs wk al bl detail rot par cths acths fths reformat := by
  simp [recognize, h]

/-- C9 witness: a japanese-model reader gives the same result for a
requested beam-search decoder as for the greedy decoder. -/
theorem recognize_cjk_forces_greedy_inst :
    recognize oEx rJa gEx (some [bEx]) (some []) "beamsearch" 5 1 0 none none 1 []
        false (1/10) (1/2) (3/1000) false
      = recognize oEx rJa gEx (some [bEx]) (some []) "greedy" 5 1 0 none none 1 []
        false (1/10) (1/2) (3/1000) false :=
  recognize_cjk_forces_greedy oEx rJa gEx (some [bEx]) (some []) "beamsearch" "greedy"
    5 1 0 none none 1 [] false (1/10) (1/2) (3/1000) false (by decide)

/-- C10: with both box lists equal to `None`, `recognize` treats the
whole grayscale image as a single region: the crop list is exactly one
crop whose box is the full-image quadrilateral
`[[0,0],[x_max,0],[x_max,y_max],[0,y_max]]`, resized to height `imgH`
and width `int(imgH * x_max / y_max)` (floor of `imgH` times the aspect
ratio), and `recognize` returns the recognizer's output on exactly that
one crop. -/
theorem recognize_whole_image_single_region (o : Oracles) (r : Reader) (g : GreyImg)
    (decoder : String) (bw bs wk : Nat) (al bl : Option (List Char))
    (detail : Nat) (cths acths fths : ℚ) (hh : 0 < g.h) :
    buildImageList g none none
      = ([([(0, 0), ((g.w : Int), 0), ((g.w : Int), (g.h : Int)), (0, (g.h : Int))],
           CropImg.resized g (imgH * g.w / g.h) imgH)], imgH * g.w / g.h)
  ∧ recognize o r g none none decoder bw bs wk al bl detail [] false cths acths fths false
      = .ok (detailOut detail (bidiPass o r (get_text o
          (mkParams r (imgH * g.w / g.h) (ignoreChar r.character r.lang_char al bl)
            (if r.model_lang ∈ cjkModels then "greedy" else decoder) bw bs cths acths fths wk)
          [([(0, 0), ((g.w : Int), 0), ((g.w : Int), (g.h : Int)), (0, (g.h : Int))],
            CropImg.resized g (imgH * g.w / g.h) imgH)]))) := by
  constructor
  · rfl
  · simp [recognize, buildImageList, finishResult]

/-- C10 witness: the full-image region at a concrete 10×10 image. -/
theorem recognize_whole_image_single_region_inst :
    buildImageList gEx none none
      = ([([(0, 0), ((gEx.w : Int), 0), ((gEx.w : Int), (gEx.h : Int)), (0, (gEx.h : Int))],
           CropImg.resized gEx (imgH * gEx.w / gEx.h) imgH)], imgH * gEx.w / gEx.h)
  ∧ recognize oEx rEx gEx none none "greedy" 5 1 0 none none 1 [] false 0 0 0 false
      = .ok (detailOut 1 (bidiPass oEx rEx (get_text oEx
          (mkParams rEx (imgH * gEx.w / gEx.h) (ignoreChar rEx.character rEx.lang_char none none)
            (if rEx.model_lang ∈ cjkModels then "greedy" else "greedy") 5 1 0 0 0 0)
          [([(0, 0), ((gEx.w : Int), 0), ((gEx.w : Int), (gEx.h : Int)), (0, (gEx.h : Int))],
            CropImg.resized gEx (imgH * gEx.w / gEx.h) imgH)]))) :=
  recognize_whole_image_single_region oEx rEx gEx "greedy" 5 1 0 none none 1 0 0 0
    (by decide)

/-- C6: `Reader` construction (standard network, detector and recognizer
requested) raises an error before any image processing whenever the
language list contains an unsupported language code, or the language
combination is unsupported (a non-latin model is selected and some
requested language is outside its compatible list), or a required model
file is missing while downloads are disabled.  An `.error` result means
no `Reader` value exists, so `detect`, `recognize` and `readtext` are
never reached. -/
theorem readerInit_rejects (env : InitEnv) (ll : List String) (dl : Bool)
    (h : (∃ l ∈ ll, l ∉ env.all_lang_list)
       ∨ ((modelChoice env ll).1 ≠ "latin" ∧ ∃ l ∈ ll, l ∉ (modelChoice env ll).2)
       ∨ ((env.detectorPresent = false ∨ env.recogPresent = false) ∧ dl = false)) :
    ∃ e, readerInit env ll dl true true = .error e := by
  unfold readerInit
  rw [if_pos rfl, if_pos rfl]
  cases hdet : checkModelFile env.detectorPresent env.detectorMd5ok dl with
  | error e => exact ⟨e, rfl⟩
  | ok _ =>
    by_cases hunk : (ll.any (fun l => decide (l ∉ env.all_lang_list))) = true
    · exact ⟨.valueError, by rw [if_pos hunk]⟩
    · rw [if_neg hunk]
      have hno : ∀ l ∈ ll, l ∈ env.all_lang_list := by
        intro l hl
        by_contra hcon
        exact hunk (List.any_eq_true.mpr ⟨l, hl, by simpa using hcon⟩)
      rcases h with h1 | h2 | h3
      · obtain ⟨l, hl, hnl⟩ := h1
        exact absurd (hno l hl) hnl
      · have hcml : chooseModelLang env ll = .error .valueError := by
          unfold chooseModelLang
          rw [if_neg h2.1]
          unfold setModelLanguage
          rw [if_pos (List.any_eq_true.mpr
            ⟨h2.2.choose, h2.2.choose_spec.1, by simpa using h2.2.choose_spec.2⟩)]
        exact ⟨.valueError, by rw [hcml]⟩
      · rcases h3.1 with hd | hr
        · exfalso
          rw [checkModelFile, if_pos hd] at hdet
          rw [if_pos h3.2] at hdet
          cases hdet
        · cases hcml : chooseModelLang env ll with
          | error e => exact ⟨e, rfl⟩
          | ok ml =>
            refine ⟨.fileNotFound, ?_⟩
            simp [checkModelFile, hr, h3.2]

/-- C6 witness: a concrete environment with the language list `["zz"]`
(an unsupported code) is rejected by `readerInit`. -/
theorem readerInit_rejects_inst :
    ∃ e, readerInit envEx ["zz"] true true true = .error e :=
  readerInit_rejects envEx ["zz"] true (Or.inl ⟨"zz", by decide, by decide⟩)

/-- C3: for every call to `recognize` with rotation hints, a non-empty
box list, and paragraph mode off (the mode in which `RecognitionResult`
records are returned), the number of results returned equals the number
of original boxes passed to the Crop Normalizer — one best-confidence
result per original box, regardless of how many rotation variants were
expanded. -/
theorem recognize_one_result_per_box (o : Oracles) (r : Reader) (g : GreyImg)
    (l1 : List HBox) (l2 : List FBox) (decoder : String) (bw bs wk : Nat)
    (al bl : Option (List Char)) (detail : Nat) (rot : List Nat)
    (cths acths fths : ℚ)
    (hrot : rot ≠ []) (hne : l1.length + l2.length ≠ 0) :
    ∃ items : List Item,
      recognize o r g (some l1) (some l2) decoder bw bs wk al bl detail rot
          false cths acths fths false
        = .ok (detailOut detail items)
      ∧ items.length = l1.length + l2.length := by
  have hrotb : rot.isEmpty = false := by simpa [List.isEmpty_iff] using hrot
  have hIL : (buildImageList g (some l1) (some l2)).1.length = l1.length + l2.length := by
    simp [buildImageList, get_image_list]
  have hILne : (buildImageList g (some l1) (some l2)).1 ≠ [] :=
    List.ne_nil_of_length_pos (by rw [hIL]; exact Nat.pos_of_ne_zero hne)
  have hILb : (buildImageList g (some l1) (some l2)).1.isEmpty = false := by
    simpa [List.isEmpty_iff] using hILne
  have hEXPne : make_rotated_img_list rot (buildImageList g (some l1) (some l2)).1 ≠ [] := by
    intro hcon
    have hlen := length_le_make_rotated rot (buildImageList g (some l1) (some l2)).1
    rw [hcon] at hlen
    exact hILne (List.length_eq_zero.mp (Nat.le_zero.mp hlen))
  have hEXPb : (make_rotated_img_list rot (buildImageList g (some l1) (some l2)).1).isEmpty = false := by
    simpa [List.isEmpty_iff] using hEXPne
  rw [recognize_unfold_rot o r g (some l1) (some l2) decoder bw bs wk al bl detail
    rot false cths acths fths hrotb hILb hEXPb]
  obtain ⟨items, hfin, hlen⟩ :=
    @finishResult_ok_of
      (bidiPass o r (get_text o
        (mkParams r (buildImageList g (some l1) (some l2)).2
          (ignoreChar r.character r.lang_char al bl)
          (if r.model_lang ∈ cjkModels then "greedy" else decoder)
          bw bs cths acths fths wk)
        (make_rotated_img_list rot (buildImageList g (some l1) (some l2)).1)))
      ((buildImageList g (some l1) (some l2)).1.length) detail
      (by rw [bidiPass_length, get_text_length]
          exact length_le_make_rotated rot _)
      (bidiPass_conf (fun it hit => get_text_conf hit))
  refine ⟨items, ?_, hlen.trans hIL⟩
  simpa using hfin

/-- C3 witness: with one box and one rotation hint (two variants),
exactly one result is returned. -/
theorem recognize_one_result_per_box_inst :
    ∃ items : List Item,
      recognize oEx rEx gEx (some [bEx]) (some []) "greedy" 5 1 0 none none 1 [90]
          false 0 0 0 false
        = .ok (detailOut 1 items)
      ∧ items.length = 1 :=
  recognize_one_result_per_box oEx rEx gEx [bEx] [] "greedy" 5 1 0 none none 1 [90]
    0 0 0 (by decide) (by decide)

/-- C1 counterexample: with rotation hints and paragraph mode both
requested on one concrete box, `recognize` (which runs the Paragraph
Reconstructor first and the Orientation Ensemble collapse after it)
differs from the claim's order (collapse before paragraph grouping):
the code's order fails at the collapse step, the claim's order
succeeds.  This refutes the claim as stated. -/
theorem recognize_collapse_order_cex :
    recognize oEx rEx gEx (some [bEx]) (some []) "greedy" 5 1 0 none none 1 [180]
        true 0 0 0 false
      ≠ recognizeCollapseFirst oEx rEx gEx (some [bEx]) (some []) "greedy" 5 1 0 none none 1 [180]
        true 0 0 0 false := by
  decide

/-- C1 (amended): in `recognize` with rotation hints, the Orientation
Ensemble collapse is applied *after* the Paragraph Reconstructor, so
paragraph grouping operates on pre-collapse, per-variant results; as a
consequence, every call combining rotation hints with paragraph mode on
a non-empty box list fails at the collapse step (paragraph records carry
no confidence for the collapse to compare). -/
theorem recognize_paragraph_before_collapse (o : Oracles) (r : Reader) (g : GreyImg)
    (l1 : List HBox) (l2 : List FBox) (decoder : String) (bw bs wk : Nat)
    (al bl : Option (List Char)) (detail : Nat) (rot : List Nat)
    (cths acths fths : ℚ)
    (hrot : rot ≠ []) (hne : l1.length + l2.length ≠ 0) :
    recognize o r g (some l1) (some l2) decoder bw bs wk al bl detail rot
        true cths acths fths false
      = .error .confMissing := by
  have hrotb : rot.isEmpty = false := by simpa [List.isEmpty_iff] using hrot
  have hIL : (buildImageList g (some l1) (some l2)).1.length = l1.length + l2.length := by
    simp [buildImageList, get_image_list]
  have hILne : (buildImageList g (some l1) (some l2)).1 ≠ [] :=
    List.ne_nil_of_length_pos (by rw [hIL]; exact Nat.pos_of_ne_zero hne)
  have hILb : (buildImageList g (some l1) (some l2)).1.isEmpty = false := by
    simpa [List.isEmpty_iff] using hILne
  have hEXPne : make_rotated_img_list rot (buildImageList g (some l1) (some l2)).1 ≠ [] := by
    intro hcon
    have hlen := length_le_make_rotated rot (buildImageList g (some l1) (some l2)).1
    rw [hcon] at hlen
    exact hILne (List.length_eq_zero.mp (Nat.le_zero.mp hlen))
  have hEXPb : (make_rotated_img_list rot (buildImageList g (some l1) (some l2)).1).isEmpty = false := by
    simpa [List.isEmpty_iff] using hEXPne
  rw [recognize_unfold_rot o r g (some l1) (some l2) decoder bw bs wk al bl detail
    rot true cths acths fths hrotb hILb hEXPb]
  have hRESne : bidiPass o r (get_text o
      (mkParams r (buildImageList g (some l1) (some l2)).2
        (ignoreChar r.character r.lang_char al bl)
        (if r.model_lang ∈ cjkModels then "greedy" else decoder)
        bw bs cths acths fths wk)
      (make_rotated_img_list rot (buildImageList g (some l1) (some l2)).1)) ≠ [] := by
    intro hcon
    have hlen := bidiPass_length o r (get_text o
      (mkParams r (buildImageList g (some l1) (some l2)).2
        (ignoreChar r.character r.lang_char al bl)
        (if r.model_lang ∈ cjkModels then "greedy" else decoder)
        bw bs cths acths fths wk)
      (make_rotated_img_list rot (buildImageList g (some l1) (some l2)).1))
    rw [hcon, get_text_length] at hlen
    exact hEXPne (List.length_eq_zero.mp hlen.symm)
  have hmain := @finishResult_confMissing
    (get_paragraph (bidiPass o r (get_text o
      (mkParams r (buildImageList g (some l1) (some l2)).2
        (ignoreChar r.character r.lang_char al bl)
        (if r.model_lang ∈ cjkModels then "greedy" else decoder)
        bw bs cths acths fths wk)
      (make_rotated_img_list rot (buildImageList g (some l1) (some l2)).1))) (dirMode r))
    ((buildImageList g (some l1) (some l2)).1.length) detail
    (by rw [hIL]; exact Nat.pos_of_ne_zero hne)
    (get_paragraph_ne_nil hRESne (dirMode r))
    (get_paragraph_conf _ (dirMode r))
  simpa using hmain

/-- C1 (amended) witness: the failure at a concrete one-box call with a
rotation hint and paragraph mode. -/
theorem recognize_paragraph_before_collapse_inst :
    recognize oEx rEx gEx (some [bEx]) (some []) "greedy" 5 1 0 none none 1 [180]
        true 0 0 0 false = .error .confMissing :=
  recognize_paragraph_before_collapse oEx rEx gEx [bEx] [] "greedy" 5 1 0 none none 1
    [180] 0 0 0 (by decide) (by decide)

end EasyOCR
